import Mathlib

/-!
Shallow embedding, in Lean 4, of the metrics-bridge parts of the
`context-aware-study-monitor` repository:

* `src/monitoring/metrics_bridge.py` — `parse_prometheus_metrics`,
  `push_to_elasticsearch`, and the polling loop `main`;
* `src/monitoring/rag_query/rag_query.py` — `_post_json_with_retries`;
* `src/prom_to_es.py` — `push_bulk_to_es`;
* `src/load_mock_to_es.py` — the NDJSON `bulk_body` construction.

Python strings are modelled as Lean `String`, Python `dict` as an ordered
association list with in-place update (Python dicts preserve insertion
order and update values in place), Python `float(...)` applied to a string
as an exact parse into `Rat` (binary rounding of IEEE doubles is
abstracted away; the special values `inf`/`nan` keep their own
constructors).  Network effects are modelled by passing the outcome of
each HTTP call (a status code, or a raised exception) as an explicit
argument.
-/

set_option autoImplicit false

namespace StudyMonitor

/-- Result of Python `float(s)` on a string: a finite (exact, rational)
value, a signed infinity, or a NaN. -/
inductive PyFloat where
  | finite (q : Rat)
  | inf (neg : Bool)
  | nan
deriving DecidableEq, Repr

/-- Python `str.strip()` / `str.split()` whitespace set (ASCII part). -/
def isPyWs (c : Char) : Bool :=
  c == ' ' || c == '\t' || c == '\n' || c == '\r' || c == '\x0b' || c == '\x0c'

/-- Characters of a Python-`strip`ped string: leading and trailing
whitespace removed. -/
def pyStripChars (cs : List Char) : List Char :=
  ((cs.dropWhile isPyWs).reverse.dropWhile isPyWs).reverse

/-- Python `str.strip()` with no argument. -/
def pyStrip (s : String) : String :=
  String.mk (pyStripChars s.toList)

/-- Helper for `pySplitWs`: accumulates the current word (reversed). -/
def pySplitWsAux : List Char → List Char → List String
  | [], acc => if acc.isEmpty then [] else [String.mk acc.reverse]
  | c :: rest, acc =>
    if isPyWs c then
      if acc.isEmpty then pySplitWsAux rest []
      else String.mk acc.reverse :: pySplitWsAux rest []
    else pySplitWsAux rest (c :: acc)

/-- Python `str.split()` with no argument: split on runs of whitespace,
discarding empty fields. -/
def pySplitWs (s : String) : List String :=
  pySplitWsAux s.toList []

/-- Helper for `pySplitlines`: Python `str.splitlines()`, recognising
`\r\n`, `\r` and `\n` as line boundaries and dropping a final empty
segment. -/
def pySplitlinesAux : List Char → List Char → List String
  | [], acc => if acc.isEmpty then [] else [String.mk acc.reverse]
  | '\r' :: '\n' :: rest, acc => String.mk acc.reverse :: pySplitlinesAux rest []
  | '\r' :: rest, acc => String.mk acc.reverse :: pySplitlinesAux rest []
  | '\n' :: rest, acc => String.mk acc.reverse :: pySplitlinesAux rest []
  | c :: rest, acc => pySplitlinesAux rest (c :: acc)

/-- Python `str.splitlines()`. -/
def pySplitlines (s : String) : List String :=
  pySplitlinesAux s.toList []

/-- Tail of a Python float "digitpart": digits with single underscores
allowed only between digits (`digit (["_"] digit)*`). -/
def digitsTail : List Char → Bool
  | [] => true
  | '_' :: c :: rest => c.isDigit && digitsTail rest
  | c :: rest => c.isDigit && digitsTail rest

/-- Whether `cs` is a valid Python "digitpart" (nonempty). -/
def isDigitPart (cs : List Char) : Bool :=
  match cs with
  | [] => false
  | c :: rest => c.isDigit && digitsTail rest

/-- Numeric value of a digitpart, ignoring underscores. -/
def digitsVal (cs : List Char) : Nat :=
  cs.foldl (fun n c => if c == '_' then n else n * 10 + (c.toNat - 48)) 0

/-- Number of actual digits in a digitpart (underscores not counted). -/
def digitCount (cs : List Char) : Nat :=
  (cs.filter (fun c => c != '_')).length

/-- Parse the mantissa of a Python float literal (everything before the
exponent): `digitpart`, `digitpart "."`, `[digitpart] "." digitpart`.
Returns the scaled integer mantissa and the number of fractional digits. -/
def parseMantissa (cs : List Char) : Option (Nat × Nat) :=
  let ip := cs.takeWhile (fun c => c != '.')
  let rest := cs.dropWhile (fun c => c != '.')
  match rest with
  | [] => if isDigitPart ip then some (digitsVal ip, 0) else none
  | _ :: frac =>
    if frac.any (fun c => c == '.') then none
    else if ip.isEmpty && frac.isEmpty then none
    else if (ip.isEmpty || isDigitPart ip) && (frac.isEmpty || isDigitPart frac) then
      some (digitsVal ip * 10 ^ digitCount frac + digitsVal frac, digitCount frac)
    else none

/-- Parse the exponent of a Python float literal: optional sign then a
digitpart. -/
def parseExp (cs : List Char) : Option Int :=
  match cs with
  | '+' :: body => if isDigitPart body then some (digitsVal body : Int) else none
  | '-' :: body => if isDigitPart body then some (-(digitsVal body : Int)) else none
  | body => if isDigitPart body then some (digitsVal body : Int) else none

/-- Assemble the exact rational value of a parsed float literal:
`±mant · 10^ex / 10^fracLen`, built with a single `mkRat` so the kernel
can evaluate it. -/
def ratOfParts (neg : Bool) (mant fracLen : Nat) (ex : Int) : Rat :=
  let sign : Int := if neg then -1 else 1
  if 0 ≤ ex then mkRat (sign * (mant : Int) * (10 : Int) ^ ex.toNat) (10 ^ fracLen)
  else mkRat (sign * (mant : Int)) (10 ^ fracLen * 10 ^ (-ex).toNat)

/-- Parse the body of a float literal after sign removal: mantissa with an
optional `e`/`E` exponent. -/
def parseNumeric (neg : Bool) (body : List Char) : Option PyFloat :=
  let mant := body.takeWhile (fun c => c != 'e' && c != 'E')
  let rest := body.dropWhile (fun c => c != 'e' && c != 'E')
  match rest with
  | [] =>
    match parseMantissa mant with
    | some (m, fl) => some (PyFloat.finite (ratOfParts neg m fl 0))
    | none => none
  | _ :: expPart =>
    match parseMantissa mant, parseExp expPart with
    | some (m, fl), some ex => some (PyFloat.finite (ratOfParts neg m fl ex))
    | _, _ => none

/-- Python `float(s)` on a string: strip whitespace, optional sign, then
either `inf`/`infinity`/`nan` (case-insensitive) or a numeric literal.
Returns `none` where Python raises `ValueError`. -/
def pyFloat? (s : String) : Option PyFloat :=
  let cs := pyStripChars s.toList
  match cs with
  | [] => none
  | _ =>
    let signed : Bool × List Char :=
      match cs with
      | '+' :: r => (false, r)
      | '-' :: r => (true, r)
      | r => (false, r)
    let neg := signed.1
    let body := signed.2
    let lower := body.map Char.toLower
    if lower = "inf".toList || lower = "infinity".toList then some (PyFloat.inf neg)
    else if lower = "nan".toList then some PyFloat.nan
    else parseNumeric neg body

/-- A Python `dict` from metric names to values, as an insertion-ordered
association list whose keys are kept duplicate-free. -/
abbrev MetricsDict := List (String × PyFloat)

/-- Keys of a dict, in insertion order. -/
def dictKeys (d : MetricsDict) : List String :=
  d.map Prod.fst

/-- Python `d[k] = v` on a dict: update the value in place if the key is
present, otherwise append the binding at the end. -/
def dictInsert (d : MetricsDict) (k : String) (v : PyFloat) : MetricsDict :=
  if k ∈ dictKeys d then
    d.map (fun p => if p.1 = k then (p.1, v) else p)
  else
    d ++ [(k, v)]

/-- Python `d.get(k)`: the value bound to `k`, if any. -/
def dictGet? (d : MetricsDict) (k : String) : Option PyFloat :=
  (d.find? (fun p => p.1 == k)).map Prod.snd

/-- Opening brace character, `U+007B`. -/
def lbrace : Char := Char.ofNat 123

/-- Whether a line starts with the Prometheus comment marker, as in the
the source, `line.startswith("#")`. -/
def startsHash (line : String) : Bool :=
  match line.toList with
  | c :: _ => c == '#'
  | [] => false

/-- Whether a line contains a label block opener, as in the source, `"\x7b" in line`. -/
def hasBrace (line : String) : Bool :=
  line.toList.any (fun c => c == lbrace)

/-- One iteration of the loop body of `parse_prometheus_metrics`, as a
partial parse of the line: skip comment lines and label-bearing lines, split the
stripped line on whitespace, accept exactly two tokens whose second parses
as a float (Python catches `ValueError` and passes). -/
def lineEntry? (line : String) : Option (String × PyFloat) :=
  if startsHash line || hasBrace line then none
  else
    match pySplitWs (pyStrip line) with
    | [name, value] =>
      match pyFloat? value with
      | some v => some (name, v)
      | none => none
    | _ => none

/-- Fold one line into the accumulated metrics dict. -/
def parseStep (d : MetricsDict) (line : String) : MetricsDict :=
  match lineEntry? line with
  | some kv => dictInsert d kv.1 kv.2
  | none => d

/-- Loop of the parser over a list of lines. -/
def parseLines (ls : List String) : MetricsDict :=
  ls.foldl parseStep []

/-- Function `parse_prometheus_metrics` from `src/monitoring/metrics_bridge.py`:
parse Prometheus exposition text into a dict of metric name to value. -/
def parse_prometheus_metrics (text : String) : MetricsDict :=
  parseLines (pySplitlines text)

/-! Network effects.  An HTTP call either returns a response with a status
code, or raises (timeout, connection failure); exceptions carry an
identifier so that "the last failure" is observable. -/

/-- Outcome of one HTTP call: a response with a status code, or a raised
exception (identified by a tag). -/
inductive PostOutcome where
  | resp (status : Nat)
  | exc (e : Nat)
deriving DecidableEq, Repr

/-- The payload that `push_to_elasticsearch` builds before POSTing:
a timestamp, the service name, and the metrics dict. -/
structure ESPayload where
  timestamp : String
  service : String
  metrics : MetricsDict
deriving DecidableEq, Repr

/-- Payload construction inside `push_to_elasticsearch`
(`src/monitoring/metrics_bridge.py`). -/
def pushPayload (now service_name : String) (metrics : MetricsDict) : ESPayload :=
  { timestamp := now, service := service_name, metrics := metrics }

/-- Observable trace of one `push_to_elasticsearch` call: how many POST
attempts it made and whether it reported success. -/
structure PushTrace where
  attempts : Nat
  success : Bool
deriving DecidableEq, Repr

/-- Function `push_to_elasticsearch` from `src/monitoring/metrics_bridge.py`,
abstracted over the behaviour of the sink (`sink n` is the outcome the sink
would give to the n-th POST attempt, counting from 0).  The source makes a
single `requests.post` inside one `try`: a 200/201 response prints
success, any other response or a raised exception prints a warning, and in
every case control returns after that one attempt. -/
def push_to_elasticsearch (sink : Nat → PostOutcome) : PushTrace :=
  match sink 0 with
  | PostOutcome.resp s => { attempts := 1, success := s == 200 || s == 201 }
  | PostOutcome.exc _ => { attempts := 1, success := false }

/-- Outcome of fetching one source in the loop of `main`: a response (status
and body text) or a raised exception. -/
inductive FetchResult where
  | ok (status : Nat) (body : String)
  | exc (e : Nat)
deriving DecidableEq, Repr

/-- What the loop of `main` does with one source in one tick. -/
inductive SourceAction where
  | pushed (doc : MetricsDict)
  | skipped
deriving DecidableEq, Repr

/-- Handling of one source inside the per-tick loop of `main`
(`src/monitoring/metrics_bridge.py`): the fetch and the push live inside
one `try` per source; a status-200 response is parsed and pushed, any
other status is logged and skipped, and a raised exception is caught and
logged. -/
def processSource (res : FetchResult) : SourceAction :=
  match res with
  | FetchResult.ok status body =>
    if status == 200 then SourceAction.pushed (parse_prometheus_metrics body)
    else SourceAction.skipped
  | FetchResult.exc _ => SourceAction.skipped

/-- One tick of the loop of `main` over the configured sources, given each
fetch outcome this tick. -/
def tick (results : List FetchResult) : List SourceAction :=
  results.map processSource

/-! Retry controller: `_post_json_with_retries` from
`src/monitoring/rag_query/rag_query.py`.

    for i in range(attempts):
        try:
            res = requests.post(...)
            return res
        except Exception as e:
            last_exc = e
            time.sleep(backoff * (i + 1))
    raise last_exc

The model consumes a list of outcomes, one per loop iteration that
actually runs, and records the attempts made, the sleeps performed (in
order), and the result: `RetryResult.ok status` for a returned response,
`RetryResult.raised lastExc` for the final `raise last_exc` (where `none`
models the initial `last_exc = None`). -/

/-- Result of the retry loop: the status of a returned response, or the
exception re-raised on exhaustion. -/
inductive RetryResult where
  | ok (status : Nat)
  | raised (e : Option Nat)
deriving DecidableEq, Repr

/-- Duration of the sleep after failed attempt `i` (0-based):
`backoff * (i + 1)`. -/
def retrySleep (backoff : Rat) (i : Nat) : Rat :=
  backoff * (i + 1)

/-- The retry loop, starting at iteration index `i` with current
`last_exc`; the list argument holds the outcomes of the remaining
iterations (its length is the number of iterations `range(attempts)` has
left). -/
def postLoop (backoff : Rat) : Nat → Option Nat → List PostOutcome →
    Nat × List Rat × RetryResult
  | _, lastExc, [] => (0, [], RetryResult.raised lastExc)
  | _, _, PostOutcome.resp s :: _ => (1, [], RetryResult.ok s)
  | i, _, PostOutcome.exc e :: rest =>
    let r := postLoop backoff (i + 1) (some e) rest
    (r.1 + 1, retrySleep backoff i :: r.2.1, r.2.2)

/-- Function `_post_json_with_retries`, with `attempts = outcomes.length`. -/
def post_json_with_retries (backoff : Rat) (outcomes : List PostOutcome) :
    Nat × List Rat × RetryResult :=
  postLoop backoff 0 none outcomes

/-! Bulk sink writer: `push_bulk_to_es` from `src/prom_to_es.py` and the
NDJSON body construction of `src/load_mock_to_es.py`.  Documents are
abstracted by their `json.dumps` serialization, supplied as a function
`dumps`. -/

/-- The sink base URL (`ES` in `src/prom_to_es.py`). -/
def ES : String := "http://localhost:9200"

/-- The target index (`INDEX` in `src/prom_to_es.py`). -/
def INDEX : String := "prometheus_bridge"

/-- The NDJSON action line, `json.dumps` of the action object
with the default separators of Python. -/
def actionLine : String :=
  "\x7b\"index\": \x7b\"_index\": \"" ++ INDEX ++ "\"\x7d\x7d"

/-- The loop building `bulk_data` in `push_bulk_to_es`: starting from the
empty string, append the action line and the document line, each
newline-terminated, for every document in order. -/
def bulk_data {Doc : Type} (dumps : Doc → String) (docs : List Doc) : String :=
  docs.foldl (fun acc doc => acc ++ actionLine ++ "\n" ++ dumps doc ++ "\n") ""

/-- An outbound HTTP POST request as `push_bulk_to_es` assembles it. -/
structure BulkRequest where
  url : String
  body : String
  contentType : String
  timeout : Nat
deriving DecidableEq, Repr

/-- Function `push_bulk_to_es` from `src/prom_to_es.py`: `if not docs: return`
(no request at all), otherwise POST the NDJSON body to the `_bulk`
endpoint with `Content-Type: application/x-ndjson` and timeout 15. -/
def push_bulk_to_es {Doc : Type} (dumps : Doc → String) (docs : List Doc) :
    Option BulkRequest :=
  if docs.isEmpty then none
  else some
    { url := ES ++ "/_bulk"
      body := bulk_data dumps docs
      contentType := "application/x-ndjson"
      timeout := 15 }

/-- Success test applied to the response status of the bulk write: the
source warns exactly when `r.status_code not in (200, 201)`. -/
def bulk_success (status : Nat) : Bool :=
  status == 200 || status == 201

/-- The `bulk_lines` list built by `src/load_mock_to_es.py`: the loop
appends the action line and the document line per document. -/
def bulk_lines {Doc : Type} (dumps : Doc → String) (docs : List Doc) : List String :=
  docs.foldl (fun acc doc => acc ++ [actionLine, dumps doc]) []

/-- Python `sep.join(ls)`. -/
def pyJoin (sep : String) : List String → String
  | [] => ""
  | [x] => x
  | x :: xs => x ++ sep ++ pyJoin sep xs

/-- The `bulk_body` string of `src/load_mock_to_es.py`:
`"\n".join(bulk_lines) + "\n"`. -/
def bulk_body {Doc : Type} (dumps : Doc → String) (docs : List Doc) : String :=
  pyJoin "\n" (bulk_lines dumps docs) ++ "\n"

/-- Newline-terminated concatenation of a list of lines: the canonical
NDJSON serialization the bulk bodies are compared against. -/
def ndjsonOf (ls : List String) : String :=
  ls.foldr (fun l acc => l ++ "\n" ++ acc) ""

/-- The alternating action/document line list for a batch, in batch
order. -/
def pairLines {Doc : Type} (dumps : Doc → String) (docs : List Doc) : List String :=
  docs.foldr (fun doc acc => actionLine :: dumps doc :: acc) []

/-- Folding a list of entries into a dict, in order. -/
def insertAll (d : MetricsDict) (es : List (String × PyFloat)) : MetricsDict :=
  es.foldl (fun d kv => dictInsert d kv.1 kv.2) d

/-- Value of the last entry with key `k`, if any: later entries take
precedence over earlier ones. -/
def lastVal? : List (String × PyFloat) → String → Option PyFloat
  | [], _ => none
  | kv :: es, k => (lastVal? es k).or (if kv.1 = k then some kv.2 else none)

/-- The exposition payload of the concrete scenario in the specification:
two well-formed sample lines, a comment line, and a malformed line. -/
def specScenarioText : String :=
  "rag_queries_total 42\nrag_retrieval_time_seconds 0.07\n# HELP ignored\nbad_line_no_value"

/-- The value `last_exc` holds after the loop has consumed the given
outcomes, starting from `le`. -/
def lastExcOf (le : Option Nat) : List PostOutcome → Option Nat
  | [] => le
  | PostOutcome.exc e :: rest => lastExcOf (some e) rest
  | PostOutcome.resp _ :: rest => lastExcOf le rest

/-! Lemmas about the dict operations and the parser fold. -/

theorem dictGet?_nil (k : String) : dictGet? [] k = none := rfl

theorem dictGet?_cons (p : String × PyFloat) (d : MetricsDict) (k : String) :
    dictGet? (p :: d) k = if p.1 = k then some p.2 else dictGet? d k := by
  by_cases h : p.1 = k
  · simp [dictGet?, List.find?, h]
  · have hb : (p.1 == k) = false := beq_eq_false_iff_ne.2 h
    simp [dictGet?, List.find?, hb, h]

theorem dictKeys_map_subst (d : MetricsDict) (k : String) (v : PyFloat) :
    dictKeys (d.map (fun p => if p.1 = k then (p.1, v) else p)) = dictKeys d := by
  simp only [dictKeys, List.map_map]
  refine List.map_congr_left ?_
  intro p _
  by_cases h : p.1 = k <;> simp [h]

theorem dictKeys_dictInsert (d : MetricsDict) (k : String) (v : PyFloat) :
    dictKeys (dictInsert d k v)
      = if k ∈ dictKeys d then dictKeys d else dictKeys d ++ [k] := by
  unfold dictInsert
  by_cases hm : k ∈ dictKeys d
  · rw [if_pos hm, if_pos hm, dictKeys_map_subst]
  · rw [if_neg hm, if_neg hm]
    simp [dictKeys]

theorem mem_dictKeys_dictInsert (d : MetricsDict) (k v_k : String) (v : PyFloat) :
    v_k ∈ dictKeys (dictInsert d k v) ↔ v_k = k ∨ v_k ∈ dictKeys d := by
  rw [dictKeys_dictInsert]
  by_cases hm : k ∈ dictKeys d
  · simp only [hm, if_true]
    exact ⟨Or.inr, fun h => h.elim (fun e => e ▸ hm) id⟩
  · simp [hm, List.mem_append, or_comm]

theorem nodup_dictKeys_dictInsert (d : MetricsDict) (k : String) (v : PyFloat)
    (h : (dictKeys d).Nodup) : (dictKeys (dictInsert d k v)).Nodup := by
  rw [dictKeys_dictInsert]
  by_cases hm : k ∈ dictKeys d
  · simpa [hm] using h
  · simp [hm, List.nodup_append, h]

theorem dictGet?_map_subst_self (d : MetricsDict) (k : String) (v : PyFloat)
    (hm : k ∈ dictKeys d) :
    dictGet? (d.map (fun p => if p.1 = k then (p.1, v) else p)) k = some v := by
  induction d with
  | nil => simp [dictKeys] at hm
  | cons p d ih =>
    by_cases h : p.1 = k
    · simp [dictGet?_cons, h]
    · have hm' : k ∈ dictKeys d := by
        rcases (by simpa [dictKeys] using hm : k = p.1 ∨ k ∈ dictKeys d) with h1 | h2
        · exact absurd h1.symm h
        · exact h2
      simp [dictGet?_cons, h, ih hm']

theorem dictGet?_map_subst_ne (d : MetricsDict) (k k₁ : String) (v : PyFloat)
    (hne : k₁ ≠ k) :
    dictGet? (d.map (fun p => if p.1 = k then (p.1, v) else p)) k₁ = dictGet? d k₁ := by
  induction d with
  | nil => rfl
  | cons p d ih =>
    by_cases h : p.1 = k
    · have hk : ¬ k = k₁ := fun e => hne e.symm
      simp [dictGet?_cons, h, hk, ih]
    · by_cases h₁ : p.1 = k₁ <;> simp [dictGet?_cons, h, h₁, hne, ih]

theorem dictGet?_append_single_self (d : MetricsDict) (k : String) (v : PyFloat)
    (hm : k ∉ dictKeys d) :
    dictGet? (d ++ [(k, v)]) k = some v := by
  induction d with
  | nil => simp [dictGet?_cons]
  | cons p d ih =>
    have h : ¬ p.1 = k := by
      intro e
      exact hm (by simp [dictKeys]; exact Or.inl e.symm)
    have hm' : k ∉ dictKeys d := by
      intro e
      refine hm ?_
      simp [dictKeys] at e ⊢
      exact Or.inr e
    simp only [List.cons_append, dictGet?_cons, h, if_false]
    exact ih hm'

theorem dictGet?_append_single_ne (d : MetricsDict) (k k₁ : String) (v : PyFloat)
    (hne : k₁ ≠ k) :
    dictGet? (d ++ [(k, v)]) k₁ = dictGet? d k₁ := by
  induction d with
  | nil =>
    have hk : ¬ k = k₁ := fun e => hne e.symm
    simp [dictGet?_nil, dictGet?_cons, hk]
  | cons p d ih =>
    by_cases h : p.1 = k₁ <;> simp [List.cons_append, dictGet?_cons, h, ih]

theorem dictGet?_dictInsert (d : MetricsDict) (k k₁ : String) (v : PyFloat) :
    dictGet? (dictInsert d k v) k₁ = if k₁ = k then some v else dictGet? d k₁ := by
  by_cases hm : k ∈ dictKeys d <;> by_cases he : k₁ = k
  · subst he; simp [dictInsert, hm, dictGet?_map_subst_self d k₁ v hm]
  · simp [dictInsert, hm, he, dictGet?_map_subst_ne d k k₁ v he]
  · subst he; simp [dictInsert, hm, dictGet?_append_single_self d k₁ v hm]
  · simp [dictInsert, hm, he, dictGet?_append_single_ne d k k₁ v he]

theorem insertAll_nil (d : MetricsDict) : insertAll d [] = d := rfl

theorem insertAll_cons (d : MetricsDict) (kv : String × PyFloat)
    (es : List (String × PyFloat)) :
    insertAll d (kv :: es) = insertAll (dictInsert d kv.1 kv.2) es := rfl

theorem mem_dictKeys_insertAll (es : List (String × PyFloat)) :
    ∀ (d : MetricsDict) (k : String),
      k ∈ dictKeys (insertAll d es) ↔ k ∈ dictKeys d ∨ k ∈ es.map Prod.fst := by
  induction es with
  | nil => intro d k; simp [insertAll_nil]
  | cons kv es ih =>
    intro d k
    rw [insertAll_cons, ih]
    simp only [mem_dictKeys_dictInsert, List.map_cons, List.mem_cons]
    tauto

theorem nodup_dictKeys_insertAll (es : List (String × PyFloat)) :
    ∀ d : MetricsDict, (dictKeys d).Nodup → (dictKeys (insertAll d es)).Nodup := by
  induction es with
  | nil => intro d h; exact h
  | cons kv es ih =>
    intro d h
    exact ih _ (nodup_dictKeys_dictInsert _ _ _ h)

theorem dictGet?_insertAll (es : List (String × PyFloat)) :
    ∀ (d : MetricsDict) (k : String),
      dictGet? (insertAll d es) k = (lastVal? es k).or (dictGet? d k) := by
  induction es with
  | nil => intro d k; simp [insertAll_nil, lastVal?]
  | cons kv es ih =>
    intro d k
    rw [insertAll_cons, ih, dictGet?_dictInsert]
    cases hl : lastVal? es k
    · by_cases he : kv.1 = k
      · simp [lastVal?, hl, he, Option.or]
      · have hk : ¬ k = kv.1 := fun e => he e.symm
        simp [lastVal?, hl, he, hk, Option.or]
    · simp [lastVal?, hl, Option.or]

theorem dictGet?_insertAll_nil (es : List (String × PyFloat)) (k : String) :
    dictGet? (insertAll [] es) k = lastVal? es k := by
  rw [dictGet?_insertAll]
  cases lastVal? es k <;> simp [dictGet?_nil]

theorem length_insertAll_nil (es : List (String × PyFloat)) :
    (insertAll [] es).length = ((es.map Prod.fst).dedup).length := by
  have h1 : (dictKeys (insertAll [] es)).Nodup :=
    nodup_dictKeys_insertAll es [] (by simp [dictKeys])
  have h2 : ((es.map Prod.fst).dedup).Nodup := List.nodup_dedup _
  have h3 : ∀ k, k ∈ dictKeys (insertAll [] es) ↔ k ∈ (es.map Prod.fst).dedup := by
    intro k
    rw [mem_dictKeys_insertAll, List.mem_dedup]
    simp [dictKeys]
  have hp : (dictKeys (insertAll [] es)).Perm ((es.map Prod.fst).dedup) :=
    (List.perm_ext_iff_of_nodup h1 h2).2 h3
  calc (insertAll [] es).length
      = (dictKeys (insertAll [] es)).length := by simp [dictKeys]
    _ = ((es.map Prod.fst).dedup).length := hp.length_eq

theorem foldl_parseStep_eq (ls : List String) :
    ∀ d : MetricsDict, ls.foldl parseStep d = insertAll d (ls.filterMap lineEntry?) := by
  induction ls with
  | nil => intro d; rfl
  | cons l ls ih =>
    intro d
    cases h : lineEntry? l <;>
      simp [List.foldl_cons, List.filterMap_cons, h, parseStep, ih, insertAll_cons]

theorem parseLines_eq_insertAll (ls : List String) :
    parseLines ls = insertAll [] (ls.filterMap lineEntry?) :=
  foldl_parseStep_eq ls []

theorem lineEntry?_eq_none_of_malformed (line : String)
    (h : startsHash line = true ∨ hasBrace line = true ∨
      (pySplitWs (pyStrip line)).length ≠ 2 ∨
      (∃ n v, pySplitWs (pyStrip line) = [n, v] ∧ pyFloat? v = none)) :
    lineEntry? line = none := by
  unfold lineEntry?
  rcases h with h | h | h | ⟨n, v, hs, hv⟩
  · simp [h]
  · simp [h]
  · by_cases hc : (startsHash line || hasBrace line) = true
    · simp [hc]
    · simp only [hc, if_false]
      cases hs : pySplitWs (pyStrip line) with
      | nil => rfl
      | cons a t =>
        cases t with
        | nil => rfl
        | cons b t₂ =>
          cases t₂ with
          | nil => exact absurd (by rw [hs]; rfl) h
          | cons c t₃ => rfl
  · by_cases hc : (startsHash line || hasBrace line) = true
    · simp [hc]
    · simp [hc, hs, hv]

theorem parseStep_eq_of_none (d : MetricsDict) (line : String)
    (h : lineEntry? line = none) : parseStep d line = d := by
  simp [parseStep, h]

/-! Lemmas about the retry loop. -/

theorem postLoop_attempts_le (backoff : Rat) :
    ∀ (outcomes : List PostOutcome) (i : Nat) (le : Option Nat),
      (postLoop backoff i le outcomes).1 ≤ outcomes.length := by
  intro outcomes
  induction outcomes with
  | nil => intro i le; simp [postLoop]
  | cons o rest ih =>
    intro i le
    cases o with
    | resp s => simp [postLoop]
    | exc e =>
      simp only [postLoop, List.length_cons]
      exact Nat.succ_le_succ (ih (i + 1) (some e))

theorem postLoop_sleep_sum_le (backoff : Rat) (hb : 0 ≤ backoff) :
    ∀ (outcomes : List PostOutcome) (i : Nat) (le : Option Nat),
      ((postLoop backoff i le outcomes).2.1).sum
        ≤ backoff * (outcomes.length * (2 * i + outcomes.length + 1)) / 2 := by
  intro outcomes
  induction outcomes with
  | nil =>
    intro i le
    simp [postLoop]
  | cons o rest ih =>
    intro i le
    cases o with
    | resp s =>
      simp only [postLoop, List.sum_nil, List.length_cons]
      have h1 : (0 : Rat) ≤ ((rest.length : Rat) + 1) * (2 * (i : Rat) + ((rest.length : Rat) + 1) + 1) := by
        positivity
      have h2 : (0 : Rat) ≤ backoff * (((rest.length : Rat) + 1) * (2 * (i : Rat) + ((rest.length : Rat) + 1) + 1)) :=
        mul_nonneg hb h1
      push_cast
      linarith [div_nonneg h2 (by norm_num : (0:Rat) ≤ 2)]
    | exc e =>
      have hih := ih (i + 1) (some e)
      simp only [postLoop, List.sum_cons, List.length_cons, retrySleep]
      push_cast at hih ⊢
      nlinarith [hih]

theorem postLoop_exhaust (backoff : Rat) :
    ∀ (outcomes : List PostOutcome) (i : Nat) (le : Option Nat),
      (∀ o ∈ outcomes, ∃ e, o = PostOutcome.exc e) →
      (postLoop backoff i le outcomes).2.2 = RetryResult.raised (lastExcOf le outcomes) := by
  intro outcomes
  induction outcomes with
  | nil => intro i le _; rfl
  | cons o rest ih =>
    intro i le hall
    obtain ⟨e₀, rfl⟩ := hall o (List.mem_cons_self o rest)
    simp only [postLoop, lastExcOf]
    exact ih (i + 1) (some e₀) (fun o ho => hall o (List.mem_cons_of_mem _ ho))

theorem lastExcOf_append (pre : List PostOutcome) :
    ∀ (le : Option Nat) (e : Nat),
      lastExcOf le (pre ++ [PostOutcome.exc e]) = some e := by
  induction pre with
  | nil => intro le e; rfl
  | cons o pre ih =>
    intro le e
    cases o with
    | resp s => simpa [lastExcOf] using ih le e
    | exc e₁ => simpa [lastExcOf] using ih (some e₁) e

/-! Lemmas about the bulk bodies. -/

theorem bulk_data_foldl {Doc : Type} (dumps : Doc → String) (docs : List Doc) :
    ∀ acc : String,
      docs.foldl (fun acc doc => acc ++ actionLine ++ "\n" ++ dumps doc ++ "\n") acc
        = acc ++ ndjsonOf (pairLines dumps docs) := by
  induction docs with
  | nil => intro acc; simp [pairLines, ndjsonOf]
  | cons d ds ih =>
    intro acc
    simp only [List.foldl_cons, ih, pairLines, List.foldr_cons, ndjsonOf]
    simp [String.append_assoc]

theorem bulk_data_eq_ndjson {Doc : Type} (dumps : Doc → String) (docs : List Doc) :
    bulk_data dumps docs = ndjsonOf (pairLines dumps docs) := by
  have h := bulk_data_foldl dumps docs ""
  simpa [bulk_data, String.empty_append] using h

theorem pairLines_length {Doc : Type} (dumps : Doc → String) (docs : List Doc) :
    (pairLines dumps docs).length = 2 * docs.length := by
  induction docs with
  | nil => rfl
  | cons d ds ih =>
    simp only [pairLines, List.foldr_cons, List.length_cons] at ih ⊢
    omega

theorem bulk_lines_foldl {Doc : Type} (dumps : Doc → String) (docs : List Doc) :
    ∀ acc : List String,
      docs.foldl (fun acc doc => acc ++ [actionLine, dumps doc]) acc
        = acc ++ pairLines dumps docs := by
  induction docs with
  | nil => intro acc; simp [pairLines]
  | cons d ds ih =>
    intro acc
    simp [List.foldl_cons, ih, pairLines]

theorem bulk_lines_eq_pairLines {Doc : Type} (dumps : Doc → String) (docs : List Doc) :
    bulk_lines dumps docs = pairLines dumps docs := by
  have h := bulk_lines_foldl dumps docs []
  simpa [bulk_lines] using h

theorem pyJoin_newline (l : List String) (hne : l ≠ []) :
    pyJoin "\n" l ++ "\n" = ndjsonOf l := by
  induction l with
  | nil => exact absurd rfl hne
  | cons x t ih =>
    cases t with
    | nil => simp [pyJoin, ndjsonOf, String.append_empty]
    | cons y t₂ =>
      have h := ih (by simp)
      simp only [pyJoin, ndjsonOf, List.foldr_cons] at h ⊢
      rw [String.append_assoc (x ++ "\n") (pyJoin "\n" (y :: t₂)) "\n", h]

theorem ndjsonOf_trailing (l : List String) (hne : l ≠ []) :
    ∃ r : String, ndjsonOf l = r ++ "\n" := by
  induction l with
  | nil => exact absurd rfl hne
  | cons x t ih =>
    cases t with
    | nil => exact ⟨x, by simp [ndjsonOf, String.append_empty]⟩
    | cons y t₂ =>
      obtain ⟨r, hr⟩ := ih (by simp)
      refine ⟨x ++ "\n" ++ r, ?_⟩
      simp only [ndjsonOf, List.foldr_cons] at hr ⊢
      rw [hr, ← String.append_assoc]

theorem pairLines_ne_nil {Doc : Type} (dumps : Doc → String) (docs : List Doc)
    (h : docs ≠ []) : pairLines dumps docs ≠ [] := by
  cases docs with
  | nil => exact absurd rfl h
  | cons d ds => simp [pairLines]

/-! Claim theorems. -/

/-- C1, counterexample: with the sink answering HTTP 503 to the first
attempt (and ready to answer 201 to a second one), the bridge sink writer
makes exactly one attempt and reports failure, dropping the batch even
though the attempt ceiling of the specification is 3. -/
theorem claim1_counterexample :
    push_to_elasticsearch
        (fun i => if i == 0 then PostOutcome.resp 503 else PostOutcome.resp 201)
      = { attempts := 1, success := false } ∧ 1 < 3 := by
  decide

/-- C1, amended: every call of the bridge sink writer makes exactly one
POST attempt; it reports success exactly for a 200 or 201 response and
otherwise logs and drops the batch, with no retry. -/
theorem claim1_amended (sink : Nat → PostOutcome) :
    (push_to_elasticsearch sink).attempts = 1 ∧
    ((push_to_elasticsearch sink).success = true ↔
      sink 0 = PostOutcome.resp 200 ∨ sink 0 = PostOutcome.resp 201) := by
  cases h : sink 0 with
  | resp s => simp [push_to_elasticsearch, h]
  | exc e => simp [push_to_elasticsearch, h]

/-- C2, counterexample: on the outcome sequence 503, 503, 201 the retry
helper returns after the first attempt, with the 503 response and no
sleeps: it performs 1 attempt, not 3, and does not return the 201. -/
theorem claim2_counterexample :
    post_json_with_retries ((1 : Rat)/2)
        [PostOutcome.resp 503, PostOutcome.resp 503, PostOutcome.resp 201]
      = (1, [], RetryResult.ok 503) ∧ (1 : Nat) ≠ 3 :=
  ⟨rfl, by decide⟩

/-- C2, amended: the retry helper retries only attempts that raise, and
returns the first response whatever its status code; when the first two
attempts raise and the third returns HTTP 201, it performs exactly 3
attempts with two sleeps of strictly increasing duration between them and
returns the 201 response. -/
theorem claim2_amended :
    post_json_with_retries ((1 : Rat)/2)
        [PostOutcome.exc 0, PostOutcome.exc 1, PostOutcome.resp 201]
      = (3, [retrySleep ((1 : Rat)/2) 0, retrySleep ((1 : Rat)/2) 1],
          RetryResult.ok 201) ∧
    retrySleep ((1 : Rat)/2) 0 < retrySleep ((1 : Rat)/2) 1 := by
  refine ⟨rfl, ?_⟩
  norm_num [retrySleep]

/-- C3, counterexample: a payload of two well-formed lines sharing one
metric name has N = 2 well-formed lines and M = 0 malformed ones, yet the
parser returns a single entry, so the parser does not return exactly N
entries as stated. -/
theorem claim3_counterexample :
    (["a 1", "a 2"].filterMap lineEntry?).length = 2 ∧
    (parseLines ["a 1", "a 2"]).length = 1 := by
  decide

/-- C3, amended: for every list of lines the parser returns exactly one
entry per distinct metric name among the well-formed lines (hence exactly
N entries when the N well-formed lines carry pairwise distinct names),
each name mapped to the value of its last well-formed occurrence
(last-write-wins); malformed lines are dropped and never abort the
parse. -/
theorem claim3_amended (lines : List String) :
    (parseLines lines).length
        = (((lines.filterMap lineEntry?).map Prod.fst).dedup).length ∧
    (∀ k, dictGet? (parseLines lines) k = lastVal? (lines.filterMap lineEntry?) k) := by
  rw [parseLines_eq_insertAll]
  exact ⟨length_insertAll_nil _, fun k => dictGet?_insertAll_nil _ k⟩

/-- C4: a line that starts with the comment marker, contains a brace
character, does not split into exactly two tokens, or whose second token
fails float parsing contributes nothing to the dict, and its presence
anywhere in the line list leaves the parse of the remaining lines
unchanged; the parser is a total function and raises nowhere. -/
theorem claim4_malformed_skipped (line : String)
    (h : startsHash line = true ∨ hasBrace line = true ∨
      (pySplitWs (pyStrip line)).length ≠ 2 ∨
      (∃ n v, pySplitWs (pyStrip line) = [n, v] ∧ pyFloat? v = none)) :
    (∀ d : MetricsDict, parseStep d line = d) ∧
    (∀ pre post : List String,
      parseLines (pre ++ line :: post) = parseLines (pre ++ post)) := by
  have hnone := lineEntry?_eq_none_of_malformed line h
  refine ⟨fun d => parseStep_eq_of_none d line hnone, ?_⟩
  intro pre post
  unfold parseLines
  rw [List.foldl_append, List.foldl_append, List.foldl_cons,
    parseStep_eq_of_none _ line hnone]

/-- C4, witness: the comment line of the concrete scenario is skipped and
leaves the rest of any parse unchanged. -/
theorem claim4_witness :
    (startsHash "# HELP ignored" = true ∨ hasBrace "# HELP ignored" = true ∨
      (pySplitWs (pyStrip "# HELP ignored")).length ≠ 2 ∨
      (∃ n v, pySplitWs (pyStrip "# HELP ignored") = [n, v] ∧ pyFloat? v = none)) ∧
    ((∀ d : MetricsDict, parseStep d "# HELP ignored" = d) ∧
      (∀ pre post : List String,
        parseLines (pre ++ "# HELP ignored" :: post) = parseLines (pre ++ post))) :=
  ⟨Or.inl (by decide),
    claim4_malformed_skipped "# HELP ignored" (Or.inl (by decide))⟩

/-- C5, counterexample: HTTP 201 is a 2xx status, yet the polling loop
skips the source instead of parsing and pushing its body. -/
theorem claim5_counterexample :
    (200 ≤ 201 ∧ 201 < 300) ∧
    processSource (FetchResult.ok 201 "rag_queries_total 42") = SourceAction.skipped := by
  decide

/-- C5, amended: a fetched response is treated as success exactly when
its status is 200, in which case the body is parsed and pushed; any other
status (other 2xx codes included) and any raised exception make the loop
skip that source for the tick. -/
theorem claim5_amended :
    (∀ s body, processSource (FetchResult.ok s body)
        = if s = 200 then SourceAction.pushed (parse_prometheus_metrics body)
          else SourceAction.skipped) ∧
    (∀ e, processSource (FetchResult.exc e) = SourceAction.skipped) := by
  refine ⟨?_, fun e => rfl⟩
  intro s body
  by_cases h : s = 200 <;> simp [processSource, h]

/-- C6: the retry controller makes at most as many attempts as it has
outcomes available (the ceiling N), the total duration slept is at most
backoff * N * (N + 1) / 2, and when every attempt raises, the final raise
propagates the exception of the last attempt. -/
theorem claim6_retry_bounds (backoff : Rat) (outcomes : List PostOutcome)
    (hb : 0 ≤ backoff) :
    (post_json_with_retries backoff outcomes).1 ≤ outcomes.length ∧
    ((post_json_with_retries backoff outcomes).2.1).sum
        ≤ backoff * (outcomes.length * (outcomes.length + 1)) / 2 ∧
    (∀ (pre : List PostOutcome) (e : Nat),
      outcomes = pre ++ [PostOutcome.exc e] →
      (∀ o ∈ outcomes, ∃ e₁, o = PostOutcome.exc e₁) →
      (post_json_with_retries backoff outcomes).2.2 = RetryResult.raised (some e)) := by
  refine ⟨postLoop_attempts_le backoff outcomes 0 none, ?_, ?_⟩
  · have h := postLoop_sleep_sum_le backoff hb outcomes 0 none
    simpa using h
  · intro pre e heq hall
    have h2 : (post_json_with_retries backoff outcomes).2.2
        = RetryResult.raised (lastExcOf none outcomes) :=
      postLoop_exhaust backoff outcomes 0 none hall
    rw [h2, heq, lastExcOf_append]

/-- C6, witness: one available attempt, raising; backoff one half. -/
theorem claim6_witness :
    (0 ≤ (1 : Rat)/2) ∧
    ((post_json_with_retries ((1 : Rat)/2) [PostOutcome.exc 0]).1
        ≤ [PostOutcome.exc 0].length ∧
      ((post_json_with_retries ((1 : Rat)/2) [PostOutcome.exc 0]).2.1).sum
        ≤ (1 : Rat)/2 * ([PostOutcome.exc 0].length * ([PostOutcome.exc 0].length + 1)) / 2 ∧
      (∀ (pre : List PostOutcome) (e : Nat),
        [PostOutcome.exc 0] = pre ++ [PostOutcome.exc e] →
        (∀ o ∈ [PostOutcome.exc 0], ∃ e₁, o = PostOutcome.exc e₁) →
        (post_json_with_retries ((1 : Rat)/2) [PostOutcome.exc 0]).2.2
          = RetryResult.raised (some e))) :=
  ⟨by norm_num, claim6_retry_bounds ((1 : Rat)/2) [PostOutcome.exc 0] (by norm_num)⟩

/-- C7: each source of a tick is handled from its own fetch outcome alone,
and with a failing first source and a second source answering 200, the
second is still fetched, parsed and pushed in the same tick. -/
theorem claim7_isolation :
    (∀ (results : List FetchResult) (i : Nat),
      (tick results)[i]? = (results[i]?).map processSource) ∧
    (∀ (e : Nat) (body : String),
      tick [FetchResult.exc e, FetchResult.ok 200 body]
        = [SourceAction.skipped, SourceAction.pushed (parse_prometheus_metrics body)]) := by
  constructor
  · intro results i
    simp [tick, List.getElem?_map]
  · intro e body
    simp [tick, processSource]

/-- C8: for a non-empty batch the bulk writer issues one POST whose body
is exactly the newline-terminated alternation of action line and document
line in batch order (2n lines with a trailing newline), sent with content
type application/x-ndjson; the mock loader builds the same body; and the
write is reported successful exactly for HTTP 200 and 201. -/
theorem claim8_bulk_protocol {Doc : Type} (dumps : Doc → String) (docs : List Doc)
    (hne : docs ≠ []) :
    ∃ req : BulkRequest,
      push_bulk_to_es dumps docs = some req ∧
      req.body = ndjsonOf (pairLines dumps docs) ∧
      (pairLines dumps docs).length = 2 * docs.length ∧
      (∃ r : String, req.body = r ++ "\n") ∧
      req.contentType = "application/x-ndjson" ∧
      req.body = bulk_body dumps docs ∧
      (∀ s, bulk_success s = true ↔ s = 200 ∨ s = 201) := by
  have hemp : docs.isEmpty = false := by
    cases docs with
    | nil => exact absurd rfl hne
    | cons d ds => rfl
  refine ⟨{ url := ES ++ "/_bulk", body := bulk_data dumps docs,
            contentType := "application/x-ndjson", timeout := 15 },
    ?_, bulk_data_eq_ndjson dumps docs, pairLines_length dumps docs, ?_, rfl, ?_, ?_⟩
  · simp [push_bulk_to_es, hemp]
  · obtain ⟨r, hr⟩ :=
      ndjsonOf_trailing (pairLines dumps docs) (pairLines_ne_nil dumps docs hne)
    exact ⟨r, by rw [bulk_data_eq_ndjson dumps docs, hr]⟩
  · rw [bulk_data_eq_ndjson dumps docs,
      ← pyJoin_newline (pairLines dumps docs) (pairLines_ne_nil dumps docs hne)]
    unfold bulk_body
    rw [bulk_lines_eq_pairLines]
  · intro s
    simp [bulk_success]

/-- C8, witness: a one-document batch of the empty JSON object. -/
theorem claim8_witness :
    ((["\x7b\x7d"] : List String) ≠ []) ∧
    (∃ req : BulkRequest,
      push_bulk_to_es (fun s : String => s) ["\x7b\x7d"] = some req ∧
      req.body = ndjsonOf (pairLines (fun s : String => s) ["\x7b\x7d"]) ∧
      (pairLines (fun s : String => s) ["\x7b\x7d"]).length = 2 * (["\x7b\x7d"] : List String).length ∧
      (∃ r : String, req.body = r ++ "\n") ∧
      req.contentType = "application/x-ndjson" ∧
      req.body = bulk_body (fun s : String => s) ["\x7b\x7d"] ∧
      (∀ s, bulk_success s = true ↔ s = 200 ∨ s = 201)) :=
  ⟨by simp, claim8_bulk_protocol (fun s : String => s) ["\x7b\x7d"] (by simp)⟩

/-- C9: on the concrete four-line scenario payload the parser yields
exactly the two samples (42 and 0.07 exactly), dropping the comment line
and the malformed line, and the payload document built from the result
carries the service identifier and both values. -/
theorem claim9_concrete_scenario :
    parse_prometheus_metrics specScenarioText
      = [("rag_queries_total", PyFloat.finite 42),
         ("rag_retrieval_time_seconds", PyFloat.finite (mkRat 7 100))] ∧
    (∀ ts sname : String,
      (pushPayload ts sname (parse_prometheus_metrics specScenarioText)).service = sname ∧
      dictGet? (pushPayload ts sname (parse_prometheus_metrics specScenarioText)).metrics
          "rag_queries_total" = some (PyFloat.finite 42) ∧
      dictGet? (pushPayload ts sname (parse_prometheus_metrics specScenarioText)).metrics
          "rag_retrieval_time_seconds" = some (PyFloat.finite (mkRat 7 100))) := by
  refine ⟨by decide, ?_⟩
  intro ts sname
  exact ⟨rfl,
    (by decide : dictGet? (parse_prometheus_metrics specScenarioText)
        "rag_queries_total" = some (PyFloat.finite 42)),
    (by decide : dictGet? (parse_prometheus_metrics specScenarioText)
        "rag_retrieval_time_seconds" = some (PyFloat.finite (mkRat 7 100)))⟩

/-- C10: called with an empty document list, the bulk writer returns
before building any request: no network write is attempted. -/
theorem claim10_empty_batch (Doc : Type) (dumps : Doc → String) :
    push_bulk_to_es dumps ([] : List Doc) = none := rfl

end StudyMonitor
